import Mathlib

/-!
Verification of the error-metrics collector of `fastapi-error-code`
(`src/fastapi_error_codes/metrics/collector.py` and
`src/fastapi_error_codes/metrics/config.py`).

Modelling conventions:
* Wall-clock instants (`datetime.utcnow()`) are milliseconds since the epoch,
  as `Nat`.  The bucket-start truncation
  `current_time.replace(microsecond=0, second=(current_time.second // 10) * 10)`
  is exactly flooring the millisecond count to a multiple of 10000, because
  minute boundaries are themselves multiples of 10 seconds.
* Python `int` fields that may be negative (error codes, status codes, the
  configuration values before validation, the `limit` argument) are `Int`;
  counters that are provably non-negative are `Nat`.
* Insertion-ordered dictionaries (`dict`, `OrderedDict`) are association
  lists with the source's update discipline: assignment to an existing key
  replaces the value in place, assignment to a fresh key appends.
* `record()` reads `datetime.utcnow()`; the instant is an explicit argument
  `now` (the two `utcnow()` readings in `record` are collapsed into one
  instant; nothing the source does depends on the tiny gap between them).
* `str(uuid.uuid4())` is an external source of fresh identifiers; it is
  modelled by a counter `uuid_seq` threaded through the collector state,
  used only to give each event a distinct `event_id`.
* `self._current_bucket` aliases the entry of `self._buckets` that shares
  its start time (when that entry has not been deleted); the pure model
  mirrors every in-place mutation of the current bucket into that entry.
  A second, heap-based model near the end of the file represents object
  identity explicitly and is used for the aliasing/frame claims.
* The eviction threshold `estimated_total > self.config.max_events * 0.9`
  compares a Python `int` with the float `max_events * 0.9`.  For every
  `max_events ≤ 1_000_000` the double `fl(max_events * fl(0.9))` lies
  strictly between the consecutive tenths around `0.9 * max_events` (the
  rounding error is below half an ulp, which is below 0.1 at this scale),
  so the comparison agrees exactly with the rational comparison
  `10 * estimated_total > 9 * max_events`, which is how it is written here.
-/

/-- One error event (`ErrorEvent` in `collector.py`).  `detail` is `Any` in
the source; it is modelled as an opaque optional payload, which is enough
because nothing in the collector inspects it. -/
structure ErrorEvent where
  error_code : Int
  error_name : String
  status_code : Int
  message : String
  detail : Option String := none
  path : Option String := none
  method : Option String := none
  timestamp : Nat
  event_id : Nat
  deriving Repr, DecidableEq

/-- A time bucket (`TimeBucket` in `collector.py`): a wall-clock window with
per-code counts (`error_counts`, an insertion-ordered dict) and a running
total. -/
structure TimeBucket where
  start_time : Nat
  end_time : Nat
  error_counts : List (Int × Nat) := []
  total_count : Nat := 0
  deriving Repr, DecidableEq

/-- Model of `d[k] = d.get(k, 0) + c` on an insertion-ordered dict: update the value
in place if the key is present, append otherwise. -/
def bumpCount (m : List (Int × Nat)) (k : Int) (c : Nat) : List (Int × Nat) :=
  match m with
  | [] => [(k, c)]
  | (k', v) :: rest => if k' = k then (k', v + c) :: rest else (k', v) :: bumpCount rest k c

/-- Dict lookup on an insertion-ordered `error_counts` mapping. -/
def lookupCount (m : List (Int × Nat)) (k : Int) : Option Nat :=
  match m with
  | [] => none
  | (k', v) :: rest => if k' = k then some v else lookupCount rest k

/-- Embedding of `TimeBucket.add_event` (collector.py lines 88-96). -/
def TimeBucket.add_event (b : TimeBucket) (event : ErrorEvent) : TimeBucket :=
  { b with
    error_counts := bumpCount b.error_counts event.error_code 1,
    total_count := b.total_count + 1 }

/-- Embedding of `TimeBucket.is_expired` (collector.py lines 98-108): true when the
current time is strictly past the end of the window. -/
def TimeBucket.is_expired (b : TimeBucket) (current_time : Nat) : Bool :=
  decide (current_time > b.end_time)

/-- A point-in-time metrics snapshot (`MetricsSnapshot` in `collector.py`). -/
structure MetricsSnapshot where
  total_errors : Nat
  error_counts : List (Int × Nat)
  recent_events : List ErrorEvent
  bucket_count : Nat
  timestamp : Nat
  deriving Repr, DecidableEq

/-- The validated configuration (`MetricsConfig` in `config.py`).  Fields
not read by the collector are kept for faithfulness of construction. -/
structure MetricsConfig where
  enabled : Bool
  collection_interval_ms : Int
  max_events : Int
  prometheus_enabled : Bool
  sentry_enabled : Bool
  sentry_dsn : Option String
  dashboard_enabled : Bool
  pii_patterns : List String
  deriving Repr, DecidableEq

/-- The default `pii_patterns` list of `MetricsConfig`. -/
def defaultPiiPatterns : List String :=
  ["email", "password", "ssn", "credit_card", "api_key", "token", "secret", "phone"]

/-- Construction of a `MetricsConfig`, i.e. the dataclass constructor
followed by `MetricsConfig.__post_init__` (config.py lines 62-74): the
checks run in source order and the first failing one raises `ValueError`. -/
def mkMetricsConfig (enabled : Bool) (collection_interval_ms : Int) (max_events : Int)
    (prometheus_enabled : Bool) (sentry_enabled : Bool) (sentry_dsn : Option String)
    (dashboard_enabled : Bool) (pii_patterns : List String) :
    Except String MetricsConfig :=
  if collection_interval_ms < 1000 then
    .error "collection_interval_ms must be at least 1000"
  else if max_events < 100 then
    .error "max_events must be at least 100"
  else if max_events > 1000000 then
    .error "max_events must not exceed 1000000"
  else if sentry_enabled && (match sentry_dsn with | none => true | some s => s.isEmpty) then
    .error "sentry_dsn is required when sentry_enabled is True"
  else
    .ok ⟨enabled, collection_interval_ms, max_events, prometheus_enabled,
      sentry_enabled, sentry_dsn, dashboard_enabled, pii_patterns⟩

/-- The all-defaults configuration `MetricsConfig()`. -/
def defaultConfig : MetricsConfig :=
  ⟨true, 60000, 10000, true, false, none, true, defaultPiiPatterns⟩

/-- The live bucket collection `self._buckets`: an insertion-ordered dict
from bucket start time to bucket. -/
abbrev Buckets := List (Nat × TimeBucket)

/-- Embedding of `self._buckets[bucket_start] = bucket` on the `OrderedDict`: replace the
value in place when the key exists (keeping its position), append otherwise. -/
def insertOD {β : Type} (bs : List (Nat × β)) (k : Nat) (v : β) : List (Nat × β) :=
  match bs with
  | [] => [(k, v)]
  | kb :: rest => if kb.1 = k then (k, v) :: rest else kb :: insertOD rest k v

/-- Mirror of an in-place mutation of the current bucket into the dict entry
that aliases it: update the value at the key when present, and do nothing
otherwise (the entry may have been deleted by the expiry sweep or eviction
while the object stays referenced by `self._current_bucket`). -/
def updateOD {β : Type} (bs : List (Nat × β)) (k : Nat) (v : β) : List (Nat × β) :=
  match bs with
  | [] => []
  | kb :: rest => if kb.1 = k then (k, v) :: rest else kb :: updateOD rest k v

/-- The collector state: the fields of `ErrorMetricsCollector` behind the
mutex (collector.py lines 185-198), plus the fresh-identifier counter that
models `uuid.uuid4()`. -/
structure ErrorMetricsCollector where
  config : MetricsConfig
  total_events : Nat
  buckets : Buckets
  recent_events : List ErrorEvent
  current_bucket : Option TimeBucket
  bucket_duration : Nat
  uuid_seq : Nat
  deriving Repr, DecidableEq

/-- Embedding of `ErrorMetricsCollector.__init__` (collector.py lines 185-198);
`_bucket_duration = timedelta(milliseconds=config.collection_interval_ms)`. -/
def initCollector (config : MetricsConfig) : ErrorMetricsCollector :=
  { config := config
    total_events := 0
    buckets := []
    recent_events := []
    current_bucket := none
    bucket_duration := config.collection_interval_ms.toNat
    uuid_seq := 0 }

/-- Model of `estimated_total = sum(bucket.total_count for bucket in self._buckets.values())`
(collector.py line 379). -/
def estimated_total (bs : Buckets) : Nat :=
  (bs.map (fun kb => kb.2.total_count)).sum

/-- The `while` loop of `_enforce_max_events` (collector.py lines 383-387):
pop the first (oldest-inserted) bucket while the estimate is above
`max_events * 0.9` and more than one bucket remains.  The float threshold is
written as the exact rational comparison `10 * est > 9 * max_events` (see
the header comment). -/
def evict_oldest_loop (max_events : Int) (bs : Buckets) (est : Nat) : Buckets :=
  match bs with
  | kb :: kb2 :: rest =>
    if 10 * (est : Int) > 9 * max_events then
      evict_oldest_loop max_events (kb2 :: rest) (est - kb.2.total_count)
    else
      kb :: kb2 :: rest
  | other => other

/-- Embedding of `ErrorMetricsCollector._enforce_max_events` (collector.py lines 372-387)
acting on the bucket collection. -/
def enforce_max_events (max_events : Int) (bs : Buckets) : Buckets :=
  let est := estimated_total bs
  if (est : Int) > max_events then evict_oldest_loop max_events bs est else bs

/-- Embedding of `ErrorMetricsCollector._cleanup_expired_buckets` (collector.py lines
358-370): delete every bucket that is expired at `current_time`,
preserving the order of the remaining ones. -/
def cleanup_expired_buckets (bs : Buckets) (current_time : Nat) : Buckets :=
  bs.filter (fun kb => ! kb.2.is_expired current_time)

/-- The new-bucket path of `record` (collector.py lines 254-269): create a
bucket aligned to the previous 10-second boundary, insert it, sweep expired
buckets, then enforce the `max_events` cap. -/
def open_new_bucket (s : ErrorMetricsCollector) (now : Nat) : TimeBucket × Buckets :=
  let bucket_start := now / 10000 * 10000
  let nb : TimeBucket := { start_time := bucket_start, end_time := bucket_start + s.bucket_duration }
  let bs1 := insertOD s.buckets bucket_start nb
  let bs2 := cleanup_expired_buckets bs1 now
  let bs3 := enforce_max_events s.config.max_events bs2
  (nb, bs3)

/-- The tail of `record` (collector.py lines 271-280): add the event to the
current bucket (mirrored into its dict entry), bump `_total_events`, and
append to the recent-events buffer, trimming it to the last 1000 entries. -/
def finish_record (s : ErrorMetricsCollector) (event : ErrorEvent)
    (cur : TimeBucket) (bs : Buckets) : ErrorMetricsCollector × Nat :=
  let cur2 := cur.add_event event
  let bs2 := updateOD bs cur2.start_time cur2
  let r := s.recent_events ++ [event]
  let r2 := if r.length > 1000 then r.drop (r.length - 1000) else r
  ({ s with
      total_events := s.total_events + 1
      buckets := bs2
      recent_events := r2
      current_bucket := some cur2
      uuid_seq := s.uuid_seq + 1 },
    event.event_id)

/-- Embedding of `ErrorMetricsCollector.record` (collector.py lines 211-280).  Returns
the updated state and the event id. -/
def ErrorMetricsCollector.record (s : ErrorMetricsCollector) (now : Nat)
    (error_code : Int) (error_name : String) (status_code : Int) (message : String)
    (detail : Option String := none) (path : Option String := none)
    (method : Option String := none) : ErrorMetricsCollector × Nat :=
  let event : ErrorEvent :=
    { error_code := error_code, error_name := error_name, status_code := status_code,
      message := message, detail := detail, path := path, method := method,
      timestamp := now, event_id := s.uuid_seq }
  match s.current_bucket with
  | some cb =>
    if now > cb.end_time then
      let nb := open_new_bucket s now
      finish_record s event nb.1 nb.2
    else
      finish_record s event cb s.buckets
  | none =>
    let nb := open_new_bucket s now
    finish_record s event nb.1 nb.2

/-- Embedding of `ErrorMetricsCollector.get_snapshot` (collector.py lines 282-307): sum
`error_counts` across all live buckets in order, copy the recent-events
buffer, and capture the totals.  `t` is the capture instant. -/
def ErrorMetricsCollector.get_snapshot (s : ErrorMetricsCollector) (t : Nat) : MetricsSnapshot :=
  let error_counts :=
    s.buckets.foldl (fun acc kb => kb.2.error_counts.foldl (fun a cc => bumpCount a cc.1 cc.2) acc) []
  { total_errors := s.total_events
    error_counts := error_counts
    recent_events := s.recent_events
    bucket_count := s.buckets.length
    timestamp := t }

/-- Embedding of `ErrorMetricsCollector.get_recent_events` (collector.py lines 319-334):
empty for `limit <= 0`, otherwise the last `limit` entries of the buffer in
reversed (most-recent-first) order. -/
def ErrorMetricsCollector.get_recent_events (s : ErrorMetricsCollector) (limit : Int) :
    List ErrorEvent :=
  if limit ≤ 0 then []
  else
    let events := s.recent_events.drop (s.recent_events.length - limit.toNat)
    events.reverse

/-- Embedding of `ErrorMetricsCollector.get_buckets` (collector.py lines 336-344). -/
def ErrorMetricsCollector.get_buckets (s : ErrorMetricsCollector) : List TimeBucket :=
  s.buckets.map Prod.snd

/-- Embedding of `ErrorMetricsCollector.clear` (collector.py lines 346-356). -/
def ErrorMetricsCollector.clear (s : ErrorMetricsCollector) : ErrorMetricsCollector :=
  { s with
    total_events := 0
    buckets := []
    recent_events := []
    current_bucket := none }

/-- One call into the collector's write API, for reasoning about whole call
sequences.  `opRecord` carries the wall-clock instant and the required
arguments of `record` (the optional arguments stay at their defaults). -/
inductive CollectorOp where
  | opRecord (now : Nat) (error_code : Int) (error_name : String)
      (status_code : Int) (message : String)
  | opClear
  deriving Repr, DecidableEq

/-- Apply one operation to a collector state. -/
def applyOp (s : ErrorMetricsCollector) : CollectorOp → ErrorMetricsCollector
  | .opRecord now ec en sc msg => (s.record now ec en sc msg).1
  | .opClear => s.clear

/-- Run a sequence of operations from a state. -/
def runOps (s : ErrorMetricsCollector) (ops : List CollectorOp) : ErrorMetricsCollector :=
  ops.foldl applyOp s

/-- The number of `record()` calls in `ops` after the last `clear()` (or all
of them when there is no `clear()`). -/
def countSinceClear (ops : List CollectorOp) : Nat :=
  ops.foldl (fun n op => match op with | .opRecord .. => n + 1 | .opClear => 0) 0

example : (initCollector defaultConfig).bucket_duration = 60000 := rfl

example :
    estimated_total ((((initCollector defaultConfig).record 0 404 "NotFound" 404 "x").1).buckets) = 1 := by
  decide

/-! ### Concrete states used by the scenario claims -/

/-- The configuration `MetricsConfig(collection_interval_ms=1000)`: the shortest legal bucket
window. -/
def cfgFast : MetricsConfig := { defaultConfig with collection_interval_ms := 1000 }

/-- The configuration `MetricsConfig(max_events=100)`: the smallest legal event cap. -/
def cfg100 : MetricsConfig := { defaultConfig with max_events := 100 }

/-- Scenario A: a fresh default collector after five `record(404, ...)` and
three `record(500, ...)` calls, all inside one bucket window. -/
def scenarioA : ErrorMetricsCollector :=
  runOps (initCollector defaultConfig)
    (List.replicate 5 (CollectorOp.opRecord 0 404 "NotFound" 404 "Resource not found") ++
     List.replicate 3 (CollectorOp.opRecord 0 500 "ServerError" 500 "Server error"))

/-- Scenario B: a fresh default collector after twenty `record` calls with
messages `"Bad request 0"` .. `"Bad request 19"`. -/
def scenarioB : ErrorMetricsCollector :=
  runOps (initCollector defaultConfig)
    ((List.range 20).map
      (fun i => CollectorOp.opRecord 0 400 "BadRequest" 400 ("Bad request " ++ toString i)))

/-- A run of `n` `record` calls with the same arguments, all at instant 0 (inside a
single bucket window), on a collector capped at `max_events = 100`. -/
def sameWindowRun (n : Nat) : ErrorMetricsCollector :=
  runOps (initCollector cfg100) (List.replicate n (CollectorOp.opRecord 0 404 "NotFound" 404 "x"))

/-! ### Sum lemmas for the count-consistency invariant -/

/-- Model of `sum(m.values())` on an `error_counts` mapping. -/
def sumVals (m : List (Int × Nat)) : Nat :=
  (m.map Prod.snd).sum

theorem sumVals_bumpCount (m : List (Int × Nat)) (k : Int) (c : Nat) :
    sumVals (bumpCount m k c) = sumVals m + c := by
  induction m with
  | nil => simp [bumpCount, sumVals]
  | cons kv rest ih =>
    obtain ⟨k', v⟩ := kv
    by_cases h : k' = k <;> simp [bumpCount, h, sumVals] at ih ⊢ <;> omega

theorem sumVals_foldl_bump (m : List (Int × Nat)) (acc : List (Int × Nat)) :
    sumVals (m.foldl (fun a cc => bumpCount a cc.1 cc.2) acc) = sumVals acc + sumVals m := by
  induction m generalizing acc with
  | nil => simp [sumVals]
  | cons cc rest ih =>
    rw [List.foldl_cons, ih, sumVals_bumpCount]
    simp [sumVals]
    omega

theorem sumVals_aggregate (bs : Buckets) (acc : List (Int × Nat)) :
    sumVals (bs.foldl (fun acc kb => kb.2.error_counts.foldl (fun a cc => bumpCount a cc.1 cc.2) acc) acc)
      = sumVals acc + (bs.map (fun kb => sumVals kb.2.error_counts)).sum := by
  induction bs generalizing acc with
  | nil => simp
  | cons kb rest ih =>
    rw [List.foldl_cons, ih, sumVals_foldl_bump]
    simp
    omega

/-! ### The per-bucket well-formedness invariant -/

/-- A bucket is well formed when its running total agrees with the sum of
its per-code counts (the `TimeBucket` invariant stated in the spec's data
model). -/
def WfBucket (b : TimeBucket) : Prop :=
  sumVals b.error_counts = b.total_count

/-- All live buckets and the current bucket are well formed. -/
def WfColl (s : ErrorMetricsCollector) : Prop :=
  (∀ kb ∈ s.buckets, WfBucket kb.2) ∧ (∀ cb, s.current_bucket = some cb → WfBucket cb)

theorem wfBucket_add_event {b : TimeBucket} (h : WfBucket b) (e : ErrorEvent) :
    WfBucket (b.add_event e) := by
  unfold WfBucket at h ⊢
  simp [TimeBucket.add_event, sumVals_bumpCount, h]

theorem mem_insertOD {β : Type} {bs : List (Nat × β)} {k : Nat} {v : β} {x : Nat × β}
    (h : x ∈ insertOD bs k v) : x = (k, v) ∨ x ∈ bs := by
  induction bs with
  | nil => simp [insertOD] at h; exact Or.inl h
  | cons kb rest ih =>
    by_cases hk : kb.1 = k
    · simp only [insertOD, if_pos hk, List.mem_cons] at h
      rcases h with h | h
      · exact Or.inl h
      · exact Or.inr (List.mem_cons_of_mem _ h)
    · simp only [insertOD, if_neg hk, List.mem_cons] at h
      rcases h with h | h
      · exact Or.inr (h ▸ List.mem_cons_self _ _)
      · rcases ih h with h' | h'
        · exact Or.inl h'
        · exact Or.inr (List.mem_cons_of_mem _ h')

theorem mem_updateOD {β : Type} {bs : List (Nat × β)} {k : Nat} {v : β} {x : Nat × β}
    (h : x ∈ updateOD bs k v) : x = (k, v) ∨ x ∈ bs := by
  induction bs with
  | nil => simp [updateOD] at h
  | cons kb rest ih =>
    by_cases hk : kb.1 = k
    · simp only [updateOD, if_pos hk, List.mem_cons] at h
      rcases h with h | h
      · exact Or.inl h
      · exact Or.inr (List.mem_cons_of_mem _ h)
    · simp only [updateOD, if_neg hk, List.mem_cons] at h
      rcases h with h | h
      · exact Or.inr (h ▸ List.mem_cons_self _ _)
      · rcases ih h with h' | h'
        · exact Or.inl h'
        · exact Or.inr (List.mem_cons_of_mem _ h')

theorem evict_oldest_loop_suffix (max_events : Int) (bs : Buckets) (est : Nat) :
    evict_oldest_loop max_events bs est <:+ bs := by
  induction bs generalizing est with
  | nil => simp [evict_oldest_loop]
  | cons kb rest ih =>
    match rest with
    | [] => simp [evict_oldest_loop]
    | kb2 :: rest' =>
      by_cases h : 10 * (est : Int) > 9 * max_events
      · simp only [evict_oldest_loop, if_pos h]
        exact (ih (est - kb.2.total_count)).trans (List.suffix_cons kb _)
      · simp [evict_oldest_loop, if_neg h]

theorem enforce_max_events_suffix (max_events : Int) (bs : Buckets) :
    enforce_max_events max_events bs <:+ bs := by
  unfold enforce_max_events
  by_cases h : (estimated_total bs : Int) > max_events
  · simpa [h] using evict_oldest_loop_suffix max_events bs (estimated_total bs)
  · simp [h]

/-- The state produced by `finish_record`, as an equation usable in proofs. -/
theorem record_eq_finish (s : ErrorMetricsCollector) (now : Nat)
    (ec : Int) (en : String) (sc : Int) (msg : String) :
    (s.record now ec en sc msg) =
      (match s.current_bucket with
       | some cb =>
         if now > cb.end_time then
           finish_record s
             { error_code := ec, error_name := en, status_code := sc, message := msg,
               timestamp := now, event_id := s.uuid_seq }
             (open_new_bucket s now).1 (open_new_bucket s now).2
         else
           finish_record s
             { error_code := ec, error_name := en, status_code := sc, message := msg,
               timestamp := now, event_id := s.uuid_seq }
             cb s.buckets
       | none =>
         finish_record s
           { error_code := ec, error_name := en, status_code := sc, message := msg,
             timestamp := now, event_id := s.uuid_seq }
           (open_new_bucket s now).1 (open_new_bucket s now).2) := by
  unfold ErrorMetricsCollector.record
  rfl

theorem wfColl_record {s : ErrorMetricsCollector} (h : WfColl s) (now : Nat)
    (ec : Int) (en : String) (sc : Int) (msg : String) :
    WfColl (s.record now ec en sc msg).1 := by
  obtain ⟨hb, hc⟩ := h
  have hopen : ∀ kb ∈ (open_new_bucket s now).2, WfBucket kb.2 := by
    intro kb hkb
    have h3 := (enforce_max_events_suffix s.config.max_events
      (cleanup_expired_buckets (insertOD s.buckets (now / 10000 * 10000)
        { start_time := now / 10000 * 10000,
          end_time := now / 10000 * 10000 + s.bucket_duration }) now)).subset hkb
    have h2 := List.mem_filter.1 h3
    rcases mem_insertOD h2.1 with h4 | h4
    · subst h4; simp [WfBucket, sumVals]
    · exact hb _ h4
  have hnew : WfBucket (open_new_bucket s now).1 := by
    simp [open_new_bucket, WfBucket, sumVals]
  have hfin : ∀ (ev : ErrorEvent) (cur : TimeBucket) (bs : Buckets),
      WfBucket cur → (∀ kb ∈ bs, WfBucket kb.2) →
      WfColl (finish_record s ev cur bs).1 := by
    intro ev cur bs hcur hbs
    constructor
    · intro kb hkb
      rcases mem_updateOD hkb with h4 | h4
      · subst h4; exact wfBucket_add_event hcur ev
      · exact hbs _ h4
    · intro cb hcb
      simp [finish_record] at hcb
      exact hcb ▸ wfBucket_add_event hcur ev
  rw [record_eq_finish]
  match hcur : s.current_bucket with
  | some cb =>
    by_cases hnow : now > cb.end_time
    · simpa [hnow] using hfin _ _ _ hnew hopen
    · simpa [hnow] using hfin _ _ _ (hc cb hcur) hb
  | none => exact hfin _ _ _ hnew hopen

theorem wfColl_applyOp {s : ErrorMetricsCollector} (h : WfColl s) (op : CollectorOp) :
    WfColl (applyOp s op) := by
  match op with
  | .opRecord now ec en sc msg => exact wfColl_record h now ec en sc msg
  | .opClear =>
    constructor
    · intro kb hkb; simp [applyOp, ErrorMetricsCollector.clear] at hkb
    · intro cb hcb; simp [applyOp, ErrorMetricsCollector.clear] at hcb

theorem wfColl_init (cfg : MetricsConfig) : WfColl (initCollector cfg) := by
  constructor
  · intro kb hkb; simp [initCollector] at hkb
  · intro cb hcb; simp [initCollector] at hcb

theorem wfColl_runOps {s : ErrorMetricsCollector} (h : WfColl s) (ops : List CollectorOp) :
    WfColl (runOps s ops) := by
  induction ops generalizing s with
  | nil => exact h
  | cons op rest ih => exact ih (wfColl_applyOp h op)

/-! ### Total-event bookkeeping -/

theorem record_total_events (s : ErrorMetricsCollector) (now : Nat)
    (ec : Int) (en : String) (sc : Int) (msg : String) :
    ((s.record now ec en sc msg).1).total_events = s.total_events + 1 := by
  rw [record_eq_finish]
  match s.current_bucket with
  | some cb =>
    by_cases hnow : now > cb.end_time <;> simp [hnow, finish_record]
  | none => simp [finish_record]

theorem runOps_total_events (ops : List CollectorOp) (s : ErrorMetricsCollector) :
    (runOps s ops).total_events =
      ops.foldl (fun n op => match op with | .opRecord .. => n + 1 | .opClear => 0)
        s.total_events := by
  induction ops generalizing s with
  | nil => rfl
  | cons op rest ih =>
    match op with
    | .opRecord now ec en sc msg =>
      show (runOps (applyOp s _) rest).total_events = _
      rw [ih]
      simp [applyOp, record_total_events]
    | .opClear =>
      show (runOps (applyOp s _) rest).total_events = _
      rw [ih]
      simp [applyOp, ErrorMetricsCollector.clear]

/-- C1, second half, as a statement about any well-formed state: the sum of
the snapshot's aggregated counts is the sum of `total_count` over the live
buckets. -/
theorem snapshot_sum_eq_estimate {s : ErrorMetricsCollector}
    (h : ∀ kb ∈ s.buckets, WfBucket kb.2) (t : Nat) :
    sumVals (s.get_snapshot t).error_counts = estimated_total s.buckets := by
  show sumVals (s.buckets.foldl _ []) = _
  rw [sumVals_aggregate]
  have : (s.buckets.map (fun kb => sumVals kb.2.error_counts)).sum
      = (s.buckets.map (fun kb => kb.2.total_count)).sum := by
    exact congrArg List.sum (List.map_congr_left (fun kb hkb => h kb hkb))
  simpa [sumVals, estimated_total] using this

/-- C1: count consistency over any call sequence from a fresh collector. -/
theorem c1_count_consistency (cfg : MetricsConfig) (ops : List CollectorOp) (t : Nat) :
    ((runOps (initCollector cfg) ops).get_snapshot t).total_errors = countSinceClear ops ∧
    sumVals ((runOps (initCollector cfg) ops).get_snapshot t).error_counts
      = estimated_total (runOps (initCollector cfg) ops).buckets := by
  constructor
  · show (runOps (initCollector cfg) ops).total_events = _
    rw [runOps_total_events]
    rfl
  · exact snapshot_sum_eq_estimate (wfColl_runOps (wfColl_init cfg) ops).1 t

/-- C4: Scenario A — five `record(404, "NotFound", 404, "Resource not found")`
calls followed by three `record(500, "ServerError", 500, "Server error")`
calls on a fresh default collector (`max_events = 10000`), all within one
bucket window, give a snapshot with `total_errors = 8`,
`error_counts[404] = 5` and `error_counts[500] = 3`. -/
theorem c4_scenario_a :
    defaultConfig.max_events = 10000 ∧
    (scenarioA.get_snapshot 0).total_errors = 8 ∧
    lookupCount (scenarioA.get_snapshot 0).error_counts 404 = some 5 ∧
    lookupCount (scenarioA.get_snapshot 0).error_counts 500 = some 3 := by
  refine ⟨rfl, by decide, by decide, by decide⟩

/-- C5: `get_recent_events(limit)` is empty for `limit ≤ 0`; for positive
`limit` it is the last `min limit length` buffer entries in
most-recent-first order (the reverse of the buffer, truncated to `limit`);
and in Scenario B `get_recent_events(10)` has length 10 and starts with the
message `"Bad request 19"`. -/
theorem c5_get_recent_events :
    (∀ (s : ErrorMetricsCollector) (limit : Int), limit ≤ 0 → s.get_recent_events limit = []) ∧
    (∀ (s : ErrorMetricsCollector) (limit : Int), 0 < limit →
      s.get_recent_events limit = s.recent_events.reverse.take limit.toNat ∧
      (s.get_recent_events limit).length = min limit.toNat s.recent_events.length) ∧
    ((scenarioB.get_recent_events 10).length = 10 ∧
      ((scenarioB.get_recent_events 10).map ErrorEvent.message).head? = some "Bad request 19") := by
  refine ⟨?_, ?_, by decide, by decide⟩
  · intro s limit hle
    simp [ErrorMetricsCollector.get_recent_events, hle]
  · intro s limit hpos
    have hne : ¬ limit ≤ 0 := by omega
    constructor
    · simp only [ErrorMetricsCollector.get_recent_events, if_neg hne]
      exact (List.take_reverse).symm
    · simp [ErrorMetricsCollector.get_recent_events, if_neg hne]
      omega

/-- C5 witness: the theorem instantiated at `limit = -5` on a fresh
collector and at `limit = 10` on the Scenario-B state. -/
theorem c5_get_recent_events_witness :
    (initCollector defaultConfig).get_recent_events (-5) = [] ∧
    scenarioB.get_recent_events 10 = scenarioB.recent_events.reverse.take 10 :=
  ⟨c5_get_recent_events.1 (initCollector defaultConfig) (-5) (by decide),
   (c5_get_recent_events.2.1 scenarioB 10 (by decide)).1⟩

/-- C6: `clear()` resets every piece of state — zero total, no buckets, no
recent events, no current bucket — and is idempotent. -/
theorem c6_clear (s : ErrorMetricsCollector) :
    (s.clear).total_events = 0 ∧
    (s.clear).get_buckets = [] ∧
    (s.clear).get_recent_events 100 = [] ∧
    (s.clear).current_bucket = none ∧
    (s.clear).clear = s.clear := by
  refine ⟨rfl, rfl, ?_, rfl, rfl⟩
  simp [ErrorMetricsCollector.get_recent_events, ErrorMetricsCollector.clear]

/-- C7: configuration construction succeeds exactly when
`collection_interval_ms ≥ 1000` and `100 ≤ max_events ≤ 1000000` (boundary
values included), and a successful construction stores the given values
unchanged (no clamping). -/
theorem c7_config_validation (i m : Int) :
    ((∃ cfg, mkMetricsConfig true i m true false none true defaultPiiPatterns
        = Except.ok cfg) ↔ (1000 ≤ i ∧ 100 ≤ m ∧ m ≤ 1000000)) ∧
    (∀ cfg, mkMetricsConfig true i m true false none true defaultPiiPatterns
        = Except.ok cfg →
      cfg.collection_interval_ms = i ∧ cfg.max_events = m) := by
  by_cases h1 : i < 1000
  · constructor
    · simp [mkMetricsConfig, h1]
    · intro cfg hcfg; simp [mkMetricsConfig, h1] at hcfg
  · by_cases h2 : m < 100
    · constructor
      · simp [mkMetricsConfig, h1, h2]
      · intro cfg hcfg; simp [mkMetricsConfig, h1, h2] at hcfg
    · by_cases h3 : m > 1000000
      · constructor
        · simp [mkMetricsConfig, h1, h2, h3]
        · intro cfg hcfg; simp [mkMetricsConfig, h1, h2, h3] at hcfg
      · constructor
        · simp [mkMetricsConfig, h1, h2, h3]
          omega
        · intro cfg hcfg
          simp [mkMetricsConfig, h1, h2, h3] at hcfg
          rw [← hcfg]
          exact ⟨rfl, rfl⟩

/-- C7 witness: the boundary configuration (1000, 100) is accepted, the
boundary (60000, 1000000) is accepted, and a successful construction at the
defaults stores the values unchanged. -/
theorem c7_config_validation_witness :
    (∃ cfg, mkMetricsConfig true 1000 100 true false none true defaultPiiPatterns
      = Except.ok cfg) ∧
    (∃ cfg, mkMetricsConfig true 60000 1000000 true false none true defaultPiiPatterns
      = Except.ok cfg) ∧
    (defaultConfig.collection_interval_ms = 60000 ∧ defaultConfig.max_events = 10000) :=
  ⟨(c7_config_validation 1000 100).1.mpr (by decide),
   (c7_config_validation 60000 1000000).1.mpr (by decide),
   (c7_config_validation 60000 10000).2 defaultConfig rfl⟩

/-! ### C3: the eviction policy -/

theorem keys_updateOD {β : Type} (bs : List (Nat × β)) (k : Nat) (v : β) :
    (updateOD bs k v).map Prod.fst = bs.map Prod.fst := by
  induction bs with
  | nil => rfl
  | cons kb rest ih =>
    by_cases hk : kb.1 = k
    · simp [updateOD, hk]
    · simp [updateOD, hk, ih]

/-- Modelled from the claim's wording: remove the single oldest bucket, the
one whose start time is at or below every other start time (the first such
entry when start times tie). -/
def removeOldestBucket : Buckets → Buckets
  | [] => []
  | kb :: rest =>
    if rest.all (fun kb2 => decide (kb.2.start_time ≤ kb2.2.start_time)) then rest
    else kb :: removeOldestBucket rest

theorem length_removeOldestBucket {bs : Buckets} (h : bs ≠ []) :
    (removeOldestBucket bs).length + 1 = bs.length := by
  induction bs with
  | nil => exact absurd rfl h
  | cons kb rest ih =>
    by_cases hall : rest.all (fun kb2 => decide (kb.2.start_time ≤ kb2.2.start_time)) = true
    · simp [removeOldestBucket, hall]
    · have hrest : rest ≠ [] := by
        intro he
        subst he
        simp at hall
      simp [removeOldestBucket, hall, ← ih hrest]

/-- Modelled from the claim's wording: while more than one bucket remains
and the estimate is above 90% of `max_events`, remove the oldest bucket. -/
def evictUntilBelowClaim (max_events : Int) (bs : Buckets) : Buckets :=
  if h : 1 < bs.length ∧ 10 * (estimated_total bs : Int) > 9 * max_events then
    evictUntilBelowClaim max_events (removeOldestBucket bs)
  else bs
termination_by bs.length
decreasing_by
  have hne : bs ≠ [] := by
    intro he
    subst he
    simp at h
  have := length_removeOldestBucket hne
  omega

/-- Modelled from the claim's wording: if the estimated total across live
buckets exceeds `max_events`, evict oldest buckets until it is at or below
90% of `max_events` (or one bucket remains); otherwise do nothing. -/
def enforce_max_events_claim (max_events : Int) (bs : Buckets) : Buckets :=
  if (estimated_total bs : Int) > max_events then evictUntilBelowClaim max_events bs else bs

theorem estimated_total_cons (kb : Nat × TimeBucket) (rest : Buckets) :
    estimated_total (kb :: rest) = kb.2.total_count + estimated_total rest := by
  simp [estimated_total]

theorem removeOldestBucket_of_sorted {kb : Nat × TimeBucket} {rest : Buckets}
    (hs : ∀ kb2 ∈ rest, kb.2.start_time < kb2.2.start_time) :
    removeOldestBucket (kb :: rest) = rest := by
  have hall : rest.all (fun kb2 => decide (kb.2.start_time ≤ kb2.2.start_time)) = true := by
    rw [List.all_eq_true]
    intro x hx
    exact decide_eq_true (le_of_lt (hs x hx))
  simp [removeOldestBucket, hall]

theorem evict_loop_eq_claim (max_events : Int) (bs : Buckets)
    (hs : List.Pairwise (fun a b => a.2.start_time < b.2.start_time) bs) :
    evict_oldest_loop max_events bs (estimated_total bs) = evictUntilBelowClaim max_events bs := by
  induction bs with
  | nil =>
    rw [evictUntilBelowClaim]
    simp [evict_oldest_loop]
  | cons kb rest ih =>
    rcases rest with _ | ⟨kb2, rest2⟩
    · rw [evictUntilBelowClaim]
      simp [evict_oldest_loop]
    · rw [List.pairwise_cons] at hs
      by_cases hc : 10 * ((estimated_total (kb :: kb2 :: rest2)) : Int) > 9 * max_events
      · have hstep : estimated_total (kb :: kb2 :: rest2) - kb.2.total_count
            = estimated_total (kb2 :: rest2) := by
          rw [estimated_total_cons]
          omega
        rw [evictUntilBelowClaim, dif_pos ⟨by simp, hc⟩, removeOldestBucket_of_sorted hs.1]
        rw [show evict_oldest_loop max_events (kb :: kb2 :: rest2)
              (estimated_total (kb :: kb2 :: rest2))
            = evict_oldest_loop max_events (kb2 :: rest2)
              (estimated_total (kb :: kb2 :: rest2) - kb.2.total_count) from by
          simp [evict_oldest_loop, hc]]
        rw [hstep]
        exact ih hs.2
      · rw [evictUntilBelowClaim, dif_neg (by
          intro hand
          exact hc hand.2)]
        simp [evict_oldest_loop, hc]

theorem evict_loop_result_bound (max_events : Int) (bs : Buckets) (hne : bs ≠ []) :
    10 * ((estimated_total (evict_oldest_loop max_events bs (estimated_total bs))) : Int)
        ≤ 9 * max_events ∨
    (evict_oldest_loop max_events bs (estimated_total bs)).length = 1 := by
  induction bs with
  | nil => exact absurd rfl hne
  | cons kb rest ih =>
    rcases rest with _ | ⟨kb2, rest2⟩
    · right
      simp [evict_oldest_loop]
    · by_cases hc : 10 * ((estimated_total (kb :: kb2 :: rest2)) : Int) > 9 * max_events
      · have hstep : estimated_total (kb :: kb2 :: rest2) - kb.2.total_count
            = estimated_total (kb2 :: rest2) := by
          rw [estimated_total_cons]
          omega
        rw [show evict_oldest_loop max_events (kb :: kb2 :: rest2)
              (estimated_total (kb :: kb2 :: rest2))
            = evict_oldest_loop max_events (kb2 :: rest2) (estimated_total (kb2 :: rest2)) from by
          simp [evict_oldest_loop, hc, hstep]]
        exact ih (by simp)
      · left
        have : evict_oldest_loop max_events (kb :: kb2 :: rest2)
            (estimated_total (kb :: kb2 :: rest2)) = kb :: kb2 :: rest2 := by
          simp [evict_oldest_loop, hc]
        rw [this]
        omega

/-- C3: the eviction policy.  (i) a `record()` that lands inside the current
bucket's window removes no bucket (the key sequence of the live collection
is unchanged, the current bucket is merely updated in place); (ii) on a
start-time-sorted bucket collection — which insertion order guarantees for
a monotone clock — `_enforce_max_events` coincides with the claim's policy:
if the estimate exceeds `max_events`, repeatedly drop the oldest bucket,
while more than one remains, until the estimate is at or below 90% of
`max_events`; (iii) eviction only ever removes a whole suffix-complement:
the surviving collection is a suffix of the original, so events are never
evicted piecemeal from inside a bucket; (iv) nothing is evicted when the
estimate is within the cap; (v) when eviction runs it stops at or below the
90% threshold or with a single bucket left. -/
theorem c3_eviction_policy :
    (∀ (s : ErrorMetricsCollector) (now : Nat) (ec : Int) (en : String) (sc : Int)
        (msg : String) (cb : TimeBucket), s.current_bucket = some cb → now ≤ cb.end_time →
        ((s.record now ec en sc msg).1).buckets.map Prod.fst = s.buckets.map Prod.fst) ∧
    (∀ (max_events : Int) (bs : Buckets),
        List.Pairwise (fun a b => a.2.start_time < b.2.start_time) bs →
        enforce_max_events max_events bs = enforce_max_events_claim max_events bs) ∧
    (∀ (max_events : Int) (bs : Buckets), enforce_max_events max_events bs <:+ bs) ∧
    (∀ (max_events : Int) (bs : Buckets), (estimated_total bs : Int) ≤ max_events →
        enforce_max_events max_events bs = bs) ∧
    (∀ (max_events : Int) (bs : Buckets), 0 ≤ max_events →
        (estimated_total bs : Int) > max_events →
        10 * ((estimated_total (enforce_max_events max_events bs)) : Int) ≤ 9 * max_events ∨
        (enforce_max_events max_events bs).length = 1) := by
  refine ⟨?_, ?_, enforce_max_events_suffix, ?_, ?_⟩
  · intro s now ec en sc msg cb hcb hle
    have hnot : ¬ now > cb.end_time := by omega
    rw [record_eq_finish, hcb]
    simp only [hnot, if_false, finish_record]
    exact keys_updateOD _ _ _
  · intro max_events bs hs
    unfold enforce_max_events enforce_max_events_claim
    by_cases h : (estimated_total bs : Int) > max_events
    · simp only [if_pos h]
      exact evict_loop_eq_claim max_events bs hs
    · simp only [if_neg h]
  · intro max_events bs h
    unfold enforce_max_events
    rw [if_neg (by omega)]
  · intro max_events bs hmax h
    have hne : bs ≠ [] := by
      intro he
      subst he
      simp [estimated_total] at h
      omega
    unfold enforce_max_events
    rw [if_pos h]
    exact evict_loop_result_bound max_events bs hne

/-- C3 witness: the policy instantiated concretely — an in-window `record`
on the Scenario-A state keeps the key sequence; the claim-policy equality,
the suffix property, and the no-op case evaluated on a two-bucket
collection with totals 60 and 50 under `max_events = 100`. -/
theorem c3_eviction_policy_witness :
    (((scenarioA.record 1 404 "NotFound" 404 "again").1).buckets.map Prod.fst
      = scenarioA.buckets.map Prod.fst) ∧
    enforce_max_events 100 [(0, ⟨0, 10000, [(404, 60)], 60⟩), (10000, ⟨10000, 20000, [(500, 50)], 50⟩)]
      = enforce_max_events_claim 100 [(0, ⟨0, 10000, [(404, 60)], 60⟩), (10000, ⟨10000, 20000, [(500, 50)], 50⟩)] ∧
    enforce_max_events 100 [(0, ⟨0, 10000, [(404, 60)], 60⟩), (10000, ⟨10000, 20000, [(500, 50)], 50⟩)]
      <:+ [(0, ⟨0, 10000, [(404, 60)], 60⟩), (10000, ⟨10000, 20000, [(500, 50)], 50⟩)] ∧
    enforce_max_events 1000 [(0, ⟨0, 10000, [(404, 60)], 60⟩)] = [(0, ⟨0, 10000, [(404, 60)], 60⟩)] ∧
    (10 * ((estimated_total (enforce_max_events 100
        [(0, ⟨0, 10000, [(404, 60)], 60⟩), (10000, ⟨10000, 20000, [(500, 50)], 50⟩)])) : Int) ≤ 9 * 100 ∨
      (enforce_max_events 100
        [(0, ⟨0, 10000, [(404, 60)], 60⟩), (10000, ⟨10000, 20000, [(500, 50)], 50⟩)]).length = 1) :=
  ⟨c3_eviction_policy.1 scenarioA 1 404 "NotFound" 404 "again" _ rfl (by decide),
   c3_eviction_policy.2.1 100 _ (by decide),
   c3_eviction_policy.2.2.1 100 _,
   c3_eviction_policy.2.2.2.1 1000 _ (by decide),
   c3_eviction_policy.2.2.2.2 100 _ (by decide) (by decide)⟩

/-! ### C10 and C2: what happens when a new bucket is opened -/

theorem cleanup_all_expired {bs : Buckets} {now : Nat}
    (h : ∀ kb ∈ bs, now > kb.2.end_time) :
    cleanup_expired_buckets bs now = [] := by
  rw [cleanup_expired_buckets, List.filter_eq_nil_iff]
  intro kb hkb
  simp [TimeBucket.is_expired]
  exact h kb hkb

theorem cleanup_insertOD (bs : Buckets) (now : Nat) (k : Nat) (v : TimeBucket)
    (h : ∀ kb ∈ bs, now > kb.2.end_time) :
    cleanup_expired_buckets (insertOD bs k v) now =
      (if now > v.end_time then [] else [(k, v)]) := by
  induction bs with
  | nil =>
    by_cases hv : now > v.end_time <;>
      simp [insertOD, cleanup_expired_buckets, TimeBucket.is_expired, hv]
  | cons kb rest ih =>
    have hkb : now > kb.2.end_time := h kb (List.mem_cons_self _ _)
    have hrest : ∀ kb2 ∈ rest, now > kb2.2.end_time :=
      fun kb2 hkb2 => h kb2 (List.mem_cons_of_mem _ hkb2)
    by_cases hk : kb.1 = k
    · rw [show insertOD (kb :: rest) k v = (k, v) :: rest from by simp [insertOD, hk]]
      by_cases hv : now > v.end_time
      · rw [if_pos hv]
        rw [cleanup_expired_buckets, List.filter_cons]
        simp [TimeBucket.is_expired, hv]
        intro a b hab
        exact hrest (a, b) hab
      · rw [if_neg hv]
        rw [cleanup_expired_buckets, List.filter_cons]
        simp [TimeBucket.is_expired, hv]
        intro a b hab
        exact hrest (a, b) hab
    · rw [show insertOD (kb :: rest) k v = kb :: insertOD rest k v from by simp [insertOD, hk]]
      rw [show cleanup_expired_buckets (kb :: insertOD rest k v) now
          = cleanup_expired_buckets (insertOD rest k v) now from by
        simp [cleanup_expired_buckets, List.filter_cons, TimeBucket.is_expired, hkb]]
      exact ih hrest

/-- A freshly opened bucket whose window is at least 10000 ms wide is never
born expired: the creation instant is inside the window. -/
theorem now_le_new_bucket_end (now : Nat) {dur : Nat} (hdur : 10000 ≤ dur) :
    now ≤ now / 10000 * 10000 + dur := by
  have hmod := Nat.div_add_mod now 10000
  have := Nat.mod_lt now (show 0 < 10000 by omega)
  omega

/-- The complete effect of a `record()` call that opens a new bucket while
every previously live bucket is already expired (which is the reachable
situation under a monotone clock: a rollover at `now` past the current
bucket's end is past every earlier bucket's end as well). -/
theorem record_opens_fresh_bucket (s : ErrorMetricsCollector) (now : Nat)
    (ec : Int) (en : String) (sc : Int) (msg : String)
    (hopen : s.current_bucket = none ∨
      ∃ cb, s.current_bucket = some cb ∧ now > cb.end_time)
    (hexp : ∀ kb ∈ s.buckets, now > kb.2.end_time)
    (hmax : 0 ≤ s.config.max_events) :
    ((s.record now ec en sc msg).1).current_bucket =
      some (TimeBucket.add_event
        { start_time := now / 10000 * 10000,
          end_time := now / 10000 * 10000 + s.bucket_duration }
        { error_code := ec, error_name := en, status_code := sc, message := msg,
          timestamp := now, event_id := s.uuid_seq }) ∧
    ((s.record now ec en sc msg).1).buckets =
      (if now > now / 10000 * 10000 + s.bucket_duration then []
       else [(now / 10000 * 10000,
         TimeBucket.add_event
           { start_time := now / 10000 * 10000,
             end_time := now / 10000 * 10000 + s.bucket_duration }
           { error_code := ec, error_name := en, status_code := sc, message := msg,
             timestamp := now, event_id := s.uuid_seq })]) := by
  have hmain : ∀ (ev : ErrorEvent),
      (finish_record s ev (open_new_bucket s now).1 (open_new_bucket s now).2).1.current_bucket
        = some (TimeBucket.add_event
            { start_time := now / 10000 * 10000,
              end_time := now / 10000 * 10000 + s.bucket_duration } ev) ∧
      (finish_record s ev (open_new_bucket s now).1 (open_new_bucket s now).2).1.buckets
        = (if now > now / 10000 * 10000 + s.bucket_duration then []
           else [(now / 10000 * 10000,
             TimeBucket.add_event
               { start_time := now / 10000 * 10000,
                 end_time := now / 10000 * 10000 + s.bucket_duration } ev)]) := by
    intro ev
    have hclean := cleanup_insertOD s.buckets now
      (now / 10000 * 10000)
      { start_time := now / 10000 * 10000,
        end_time := now / 10000 * 10000 + s.bucket_duration } hexp
    by_cases hborn : now > now / 10000 * 10000 + s.bucket_duration
    · rw [if_pos hborn] at hclean
      have hbs : (open_new_bucket s now).2 = [] := by
        simp only [open_new_bucket, hclean, enforce_max_events, estimated_total]
        simp
        omega
      constructor
      · simp [finish_record, open_new_bucket]
      · rw [if_pos hborn]
        simp [finish_record, hbs, updateOD]
    · rw [if_neg hborn] at hclean
      have hbs : (open_new_bucket s now).2 =
          [(now / 10000 * 10000,
            { start_time := now / 10000 * 10000,
              end_time := now / 10000 * 10000 + s.bucket_duration })] := by
        simp only [open_new_bucket, hclean, enforce_max_events, estimated_total]
        simp
        omega
      have hfst : (open_new_bucket s now).1 =
          { start_time := now / 10000 * 10000,
            end_time := now / 10000 * 10000 + s.bucket_duration } := rfl
      constructor
      · simp [finish_record, open_new_bucket]
      · rw [if_neg hborn]
        simp [finish_record, hfst, hbs, updateOD, TimeBucket.add_event]
  rw [record_eq_finish]
  rcases hopen with hnone | ⟨cb, hcb, hgt⟩
  · rw [hnone]
    exact hmain _
  · rw [hcb]
    simp only [if_pos hgt]
    exact hmain _

/-- The state after `record(400, "BadRequest", 400, "boom")` at instant
5000 ms on a fresh collector with `collection_interval_ms = 1000`: the new
bucket gets start time 0 (truncation to the previous 10-second boundary)
and end time 1000, so it is already expired at creation. -/
def bornExpired : ErrorMetricsCollector :=
  ((initCollector cfgFast).record 5000 400 "BadRequest" 400 "boom").1

/-- C10: with `collection_interval_ms ≥ 10000` (so bucket windows are at
least as wide as the 10-second alignment), a `record()` that opens a new
bucket — at an instant past every live bucket's end, the reachable rollover
situation — leaves that bucket unexpired (`now ≤ end_time`), keeps it in
`get_buckets()`, and its count shows up in the snapshot's `error_counts`.
With `collection_interval_ms = 1000` this fails: at `now = 5000` the new
bucket is `[0, 1000]`, already expired at birth; the sweep deletes it from
the bucket collection while it stays the current bucket, so the event is
counted in `total_events` but invisible to the snapshot's `error_counts`. -/
theorem c10_new_bucket_liveness :
    (∀ (s : ErrorMetricsCollector) (now : Nat) (ec : Int) (en : String) (sc : Int)
        (msg : String) (t : Nat),
      10000 ≤ s.bucket_duration →
      (s.current_bucket = none ∨ ∃ cb, s.current_bucket = some cb ∧ now > cb.end_time) →
      (∀ kb ∈ s.buckets, now > kb.2.end_time) →
      0 ≤ s.config.max_events →
      ∃ nb, ((s.record now ec en sc msg).1).current_bucket = some nb ∧
        now ≤ nb.end_time ∧
        ((s.record now ec en sc msg).1).get_buckets = [nb] ∧
        lookupCount (((s.record now ec en sc msg).1).get_snapshot t).error_counts ec
          = some nb.total_count ∧
        nb.total_count = 1) ∧
    (cfgFast.collection_interval_ms = 1000 ∧
      bornExpired.total_events = 1 ∧
      bornExpired.current_bucket =
        some { start_time := 0, end_time := 1000, error_counts := [(400, 1)], total_count := 1 } ∧
      bornExpired.buckets = [] ∧
      (bornExpired.get_snapshot 5000).error_counts = [] ∧
      lookupCount (bornExpired.get_snapshot 5000).error_counts 400 = none) := by
  constructor
  · intro s now ec en sc msg t hdur hopen hexp hmax
    have hborn : ¬ now > now / 10000 * 10000 + s.bucket_duration := by
      have := now_le_new_bucket_end now hdur
      omega
    obtain ⟨hcur, hb⟩ := record_opens_fresh_bucket s now ec en sc msg hopen hexp hmax
    rw [if_neg hborn] at hb
    refine ⟨_, hcur, ?_, ?_, ?_, rfl⟩
    · show now ≤ now / 10000 * 10000 + s.bucket_duration
      omega
    · simp [ErrorMetricsCollector.get_buckets, hb, TimeBucket.add_event]
    · simp [ErrorMetricsCollector.get_snapshot, hb, TimeBucket.add_event, bumpCount, lookupCount]
  · refine ⟨rfl, by decide, by decide, by decide, by decide, by decide⟩

/-- C10 witness: the unexpired-new-bucket half instantiated on a fresh
default collector (`collection_interval_ms = 60000`) recording at instant
12345. -/
theorem c10_new_bucket_liveness_witness :
    ∃ nb, (((initCollector defaultConfig).record 12345 404 "NotFound" 404 "x").1).current_bucket
        = some nb ∧
      12345 ≤ nb.end_time ∧
      (((initCollector defaultConfig).record 12345 404 "NotFound" 404 "x").1).get_buckets = [nb] ∧
      lookupCount ((((initCollector defaultConfig).record 12345 404 "NotFound" 404 "x").1).get_snapshot
          12345).error_counts 404 = some nb.total_count ∧
      nb.total_count = 1 :=
  c10_new_bucket_liveness.1 (initCollector defaultConfig) 12345 404 "NotFound" 404 "x" 12345
    (by decide) (Or.inl rfl) (by simp [initCollector]) (by decide)

set_option maxRecDepth 10000 in
/-- C2 counterexample: the bounded-memory claim fails as stated.  With the
smallest legal cap (`max_events = 100`, accepted by the validator), 101
`record()` calls inside one bucket window leave the bucket-held estimate at
101 > 100, and recording further (150 calls) only grows it — the estimate
never settles at or below the cap, because `_enforce_max_events` runs only
when a new bucket is opened. -/
theorem c2_bounded_memory_counterexample :
    mkMetricsConfig true 60000 100 true false none true defaultPiiPatterns = Except.ok cfg100 ∧
    estimated_total (sameWindowRun 101).buckets = 101 ∧
    ¬ ((estimated_total (sameWindowRun 101).buckets : Int) ≤ cfg100.max_events) ∧
    estimated_total (sameWindowRun 150).buckets = 150 ∧
    (sameWindowRun 150).buckets.length = 1 := by
  refine ⟨rfl, by decide, by decide, by decide, by decide⟩

/-- C2 as amended: the retained estimate is re-bounded only when a
`record()` call opens a new bucket.  Immediately after such a call (at an
instant past every live bucket's end — the reachable rollover situation
under a monotone clock) the estimate is at most 1, hence at or below any
legal `max_events`; between rollovers the estimate can exceed the cap
without bound (as the counterexample shows). -/
theorem c2_bounded_memory_amended (s : ErrorMetricsCollector) (now : Nat)
    (ec : Int) (en : String) (sc : Int) (msg : String)
    (hopen : s.current_bucket = none ∨
      ∃ cb, s.current_bucket = some cb ∧ now > cb.end_time)
    (hexp : ∀ kb ∈ s.buckets, now > kb.2.end_time)
    (hmax : 100 ≤ s.config.max_events) :
    estimated_total ((s.record now ec en sc msg).1).buckets ≤ 1 ∧
    (estimated_total ((s.record now ec en sc msg).1).buckets : Int) ≤ s.config.max_events := by
  obtain ⟨-, hb⟩ := record_opens_fresh_bucket s now ec en sc msg hopen hexp (by omega)
  rw [hb]
  by_cases hborn : now > now / 10000 * 10000 + s.bucket_duration
  · rw [if_pos hborn]
    constructor
    · simp [estimated_total]
    · simp [estimated_total]
      omega
  · rw [if_neg hborn]
    constructor
    · simp [estimated_total, TimeBucket.add_event]
    · simp [estimated_total, TimeBucket.add_event]
      omega

/-- C2 amended witness: a rollover `record` at instant 70000 on the
Scenario-A state (whose single bucket `[0, 60000]` is then expired) brings
the estimate down to 1 ≤ 10000. -/
theorem c2_bounded_memory_amended_witness :
    estimated_total ((scenarioA.record 70000 404 "NotFound" 404 "late").1).buckets ≤ 1 ∧
    (estimated_total ((scenarioA.record 70000 404 "NotFound" 404 "late").1).buckets : Int)
      ≤ scenarioA.config.max_events :=
  c2_bounded_memory_amended scenarioA 70000 404 "NotFound" 404 "late"
    (Or.inr ⟨{ start_time := 0, end_time := 60000,
               error_counts := [(404, 5), (500, 3)], total_count := 8 },
      by decide, by decide⟩)
    (by decide) (by decide)

/-!
### A heap model of the collector for the aliasing/frame claims

`get_snapshot` promises that the returned object is never touched again by
the collector.  In Python this is a statement about object identity: the
snapshot must hold fresh copies, not aliases of `self._recent_events` or of
any live dict, because `record()` mutates those in place (`list.append`,
`dict.__setitem__`) and `clear()` empties them in place.  The pure model
above erases identity, so the same source lines are re-embedded here with
an explicit heap: bucket objects, `error_counts`-carrying cells and event
lists are heap cells addressed by `Nat`; in-place mutation is `List.set`,
allocation appends a fresh cell.  `self._current_bucket` and the values of
`self._buckets` are addresses, so the aliasing between them is literal.
-/

/-- A heap cell: an event-list object, an aggregated-counts dict object, or
a `TimeBucket` object (with its `error_counts` dict folded into the same
cell, since bucket and dict are allocated and dropped together). -/
inductive HVal where
  | hEvents (l : List ErrorEvent)
  | hCounts (m : List (Int × Nat))
  | hBucket (b : TimeBucket)
  deriving Repr, DecidableEq

/-- The heap: cells addressed by position; allocation appends. -/
abbrev Heap := List HVal

/-- Dereference a bucket cell (well-formed states always hit the
`hBucket` case; the fallback keeps the function total). -/
def hBucketAt (h : Heap) (a : Nat) : TimeBucket :=
  match h[a]? with
  | some (.hBucket b) => b
  | _ => { start_time := 0, end_time := 0 }

/-- Dereference an event-list cell. -/
def hEventsAt (h : Heap) (a : Nat) : List ErrorEvent :=
  match h[a]? with
  | some (.hEvents l) => l
  | _ => []

/-- The collector's own fields in the heap model: `buckets` maps start
times to bucket-cell addresses, `recentAddr` is the address of the
`_recent_events` list object, `current` the address of the current bucket. -/
structure HCollector where
  config : MetricsConfig
  total_events : Nat
  buckets : List (Nat × Nat)
  recentAddr : Nat
  current : Option Nat
  bucket_duration : Nat
  uuid_seq : Nat
  deriving Repr, DecidableEq

/-- Embedding of `__init__` in the heap model: one fresh empty event-list cell. -/
def initHeapCollector (config : MetricsConfig) : Heap × HCollector :=
  ([.hEvents []],
   { config := config, total_events := 0, buckets := [], recentAddr := 0,
     current := none, bucket_duration := config.collection_interval_ms.toNat,
     uuid_seq := 0 })

/-- The `_enforce_max_events` loop over bucket addresses (reads totals
through the heap). -/
def evict_oldest_loopH (max_events : Int) (h : Heap) (bs : List (Nat × Nat)) (est : Nat) :
    List (Nat × Nat) :=
  match bs with
  | ka :: ka2 :: rest =>
    if 10 * (est : Int) > 9 * max_events then
      evict_oldest_loopH max_events h (ka2 :: rest) (est - (hBucketAt h ka.2).total_count)
    else ka :: ka2 :: rest
  | other => other

/-- Embedding of `_enforce_max_events` in the heap model. -/
def enforce_max_eventsH (max_events : Int) (h : Heap) (bs : List (Nat × Nat)) :
    List (Nat × Nat) :=
  let est := (bs.map (fun ka => (hBucketAt h ka.2).total_count)).sum
  if (est : Int) > max_events then evict_oldest_loopH max_events h bs est else bs

/-- The new-bucket path of `record` (collector.py lines 255-269) in the
heap model: allocate a bucket cell, insert its address, sweep expired
buckets, enforce the cap. -/
def recordH_newbucket (h : Heap) (st : HCollector) (now : Nat) : Heap × HCollector :=
  let bucket_start := now / 10000 * 10000
  let nb : TimeBucket := { start_time := bucket_start, end_time := bucket_start + st.bucket_duration }
  let h1 := h ++ [.hBucket nb]
  let bs1 := insertOD st.buckets bucket_start h.length
  let bs2 := bs1.filter (fun ka => ! (hBucketAt h1 ka.2).is_expired now)
  let bs3 := enforce_max_eventsH st.config.max_events h1 bs2
  (h1, { st with buckets := bs3, current := some h.length })

/-- Bucket selection in `record` (collector.py lines 252-269) in the heap
model. -/
def recordH_bucket (h : Heap) (st : HCollector) (now : Nat) : Heap × HCollector :=
  match st.current with
  | some a =>
    if now > (hBucketAt h a).end_time then recordH_newbucket h st now else (h, st)
  | none => recordH_newbucket h st now

/-- The overflow trim (collector.py lines 277-278) in the heap model: when
the just-appended buffer exceeds 1000 entries, the slice `[-1000:]`
allocates a fresh list object and `_recent_events` is rebound to it;
otherwise the buffer object and binding stay. -/
def trim_recent (h3 : Heap) (recentAddr : Nat) (r : List ErrorEvent) : Heap × Nat :=
  if r.length > 1000 then (h3 ++ [.hEvents (r.drop (r.length - 1000))], h3.length)
  else (h3, recentAddr)

/-- The tail of `record` (collector.py lines 271-280) in the heap model:
mutate the current bucket cell in place, then append to the recent-events
cell in place, then apply the overflow trim. -/
def recordH_write (h1 : Heap) (st1 : HCollector) (ev : ErrorEvent) :
    Heap × HCollector × Nat :=
  let h2 := match st1.current with
    | some a => h1.set a (.hBucket ((hBucketAt h1 a).add_event ev))
    | none => h1
  let r := hEventsAt h2 st1.recentAddr ++ [ev]
  let h3 := h2.set st1.recentAddr (.hEvents r)
  let tr := trim_recent h3 st1.recentAddr r
  (tr.1,
   { st1 with
      total_events := st1.total_events + 1
      recentAddr := tr.2
      uuid_seq := st1.uuid_seq + 1 },
   ev.event_id)

/-- Embedding of `record` (collector.py lines 211-280) in the heap model. -/
def recordH (h : Heap) (st : HCollector) (now : Nat) (ec : Int) (en : String)
    (sc : Int) (msg : String) : Heap × HCollector × Nat :=
  recordH_write (recordH_bucket h st now).1 (recordH_bucket h st now).2
    { error_code := ec, error_name := en, status_code := sc, message := msg,
      timestamp := now, event_id := st.uuid_seq }

/-- A snapshot in the heap model: `total_errors` is captured by value, the
aggregated counts and the copy of the recent-events list are freshly
allocated cells whose addresses the snapshot holds. -/
structure HSnapshot where
  total_errors : Nat
  countsAddr : Nat
  recentAddr : Nat
  bucket_count : Nat
  timestamp : Nat
  deriving Repr, DecidableEq

/-- The aggregation loop of `get_snapshot` (collector.py lines 294-297) in
the heap model: sum `error_counts` over the live bucket cells in order. -/
def snapshotCountsH (h : Heap) (st : HCollector) : List (Int × Nat) :=
  st.buckets.foldl
    (fun acc ka => (hBucketAt h ka.2).error_counts.foldl (fun a cc => bumpCount a cc.1 cc.2) acc) []

/-- Embedding of `get_snapshot` (collector.py lines 282-307) in the heap model:
aggregate into a fresh dict cell and copy the recent-events list into a
fresh list cell. -/
def get_snapshotH (h : Heap) (st : HCollector) (t : Nat) : Heap × HSnapshot :=
  (h ++ [.hCounts (snapshotCountsH h st), .hEvents (hEventsAt h st.recentAddr)],
   { total_errors := st.total_events, countsAddr := h.length, recentAddr := h.length + 1,
     bucket_count := st.buckets.length, timestamp := t })

/-- Embedding of `clear` (collector.py lines 346-356) in the heap model:
`self._recent_events.clear()` empties the list object in place; the bucket
references are dropped. -/
def clearH (h : Heap) (st : HCollector) : Heap × HCollector :=
  (h.set st.recentAddr (.hEvents []),
   { st with total_events := 0, buckets := [], current := none })

/-- Write-API calls in the heap model. -/
inductive HOp where
  | opRecord (now : Nat) (error_code : Int) (error_name : String)
      (status_code : Int) (message : String)
  | opClear
  deriving Repr, DecidableEq

/-- Apply one heap-model operation. -/
def applyHOp (p : Heap × HCollector) : HOp → Heap × HCollector
  | .opRecord now ec en sc msg =>
    ((recordH p.1 p.2 now ec en sc msg).1, (recordH p.1 p.2 now ec en sc msg).2.1)
  | .opClear => clearH p.1 p.2

/-- Run a sequence of heap-model operations. -/
def runHOps (p : Heap × HCollector) (ops : List HOp) : Heap × HCollector :=
  ops.foldl applyHOp p

/-- The addresses the collector can reach (and hence mutate):
`_recent_events`, `_current_bucket`, and the values of `_buckets`. -/
def usedAddr (st : HCollector) (a : Nat) : Prop :=
  a = st.recentAddr ∨ st.current = some a ∨ ∃ ka ∈ st.buckets, ka.2 = a

/-! ### Frame lemmas: which cells each operation can touch -/

theorem mem_evict_oldest_loopH {max_events : Int} {h : Heap} {bs : List (Nat × Nat)}
    {est : Nat} {x : Nat × Nat} (hx : x ∈ evict_oldest_loopH max_events h bs est) :
    x ∈ bs := by
  induction bs generalizing est with
  | nil => simpa [evict_oldest_loopH] using hx
  | cons ka rest ih =>
    rcases rest with _ | ⟨ka2, rest2⟩
    · simpa [evict_oldest_loopH] using hx
    · by_cases hc : 10 * (est : Int) > 9 * max_events
      · simp only [evict_oldest_loopH, if_pos hc] at hx
        exact List.mem_cons_of_mem _ (ih hx)
      · simpa [evict_oldest_loopH, if_neg hc] using hx

theorem mem_enforce_max_eventsH {max_events : Int} {h : Heap} {bs : List (Nat × Nat)}
    {x : Nat × Nat} (hx : x ∈ enforce_max_eventsH max_events h bs) : x ∈ bs := by
  unfold enforce_max_eventsH at hx
  by_cases hc : (((bs.map (fun ka => (hBucketAt h ka.2).total_count)).sum : Nat) : Int) > max_events
  · rw [if_pos hc] at hx
    exact mem_evict_oldest_loopH hx
  · rwa [if_neg hc] at hx

theorem recordH_newbucket_frame (h : Heap) (st : HCollector) (now : Nat) (a : Nat)
    (ha : a < h.length) : (recordH_newbucket h st now).1[a]? = h[a]? := by
  unfold recordH_newbucket
  exact List.getElem?_append_left ha

theorem recordH_newbucket_length (h : Heap) (st : HCollector) (now : Nat) :
    (recordH_newbucket h st now).1.length = h.length + 1 := by
  simp [recordH_newbucket]

theorem recordH_newbucket_state (h : Heap) (st : HCollector) (now : Nat) :
    (recordH_newbucket h st now).2.recentAddr = st.recentAddr ∧
    (recordH_newbucket h st now).2.current = some h.length ∧
    ∀ ka ∈ (recordH_newbucket h st now).2.buckets, ka.2 = h.length ∨ ka ∈ st.buckets := by
  refine ⟨rfl, rfl, ?_⟩
  intro ka hka
  have h2 := mem_enforce_max_eventsH hka
  have h1 := List.mem_filter.1 h2
  rcases mem_insertOD h1.1 with he | he
  · left
    rw [he]
  · right
    exact he

theorem recordH_bucket_frame (h : Heap) (st : HCollector) (now : Nat) (a : Nat)
    (ha : a < h.length) : (recordH_bucket h st now).1[a]? = h[a]? := by
  unfold recordH_bucket
  match st.current with
  | some c =>
    by_cases hc : now > (hBucketAt h c).end_time
    · simp only [if_pos hc]
      exact recordH_newbucket_frame h st now a ha
    · simp only [if_neg hc]
  | none => exact recordH_newbucket_frame h st now a ha

theorem recordH_bucket_length (h : Heap) (st : HCollector) (now : Nat) :
    h.length ≤ (recordH_bucket h st now).1.length := by
  unfold recordH_bucket
  match st.current with
  | some c =>
    by_cases hc : now > (hBucketAt h c).end_time
    · simp only [if_pos hc]
      rw [recordH_newbucket_length]
      omega
    · simp only [if_neg hc]
      exact le_refl _
  | none =>
    rw [recordH_newbucket_length]
    omega

theorem recordH_bucket_state (h : Heap) (st : HCollector) (now : Nat) :
    (recordH_bucket h st now).2.recentAddr = st.recentAddr ∧
    ((recordH_bucket h st now).2.current = st.current ∨
      (recordH_bucket h st now).2.current = some h.length) ∧
    ∀ ka ∈ (recordH_bucket h st now).2.buckets, ka.2 = h.length ∨ ka ∈ st.buckets := by
  unfold recordH_bucket
  match hcu : st.current with
  | some c =>
    by_cases hc : now > (hBucketAt h c).end_time
    · simp only [if_pos hc]
      obtain ⟨h1, h2, h3⟩ := recordH_newbucket_state h st now
      exact ⟨h1, Or.inr h2, h3⟩
    · simp only [if_neg hc]
      refine ⟨by simp, Or.inl hcu, fun ka hka => Or.inr hka⟩
  | none =>
    obtain ⟨h1, h2, h3⟩ := recordH_newbucket_state h st now
    exact ⟨h1, Or.inr h2, h3⟩

theorem trim_recent_frame (h3 : Heap) (recentAddr : Nat) (r : List ErrorEvent) (a : Nat)
    (ha : a < h3.length) : (trim_recent h3 recentAddr r).1[a]? = h3[a]? := by
  unfold trim_recent
  split
  · exact List.getElem?_append_left ha
  · rfl

theorem trim_recent_length (h3 : Heap) (recentAddr : Nat) (r : List ErrorEvent) :
    h3.length ≤ (trim_recent h3 recentAddr r).1.length := by
  unfold trim_recent
  split <;> simp

theorem trim_recent_addr (h3 : Heap) (recentAddr : Nat) (r : List ErrorEvent) :
    (trim_recent h3 recentAddr r).2 = recentAddr ∨ (trim_recent h3 recentAddr r).2 = h3.length := by
  unfold trim_recent
  split
  · exact Or.inr rfl
  · exact Or.inl rfl

theorem recordH_write_frame (h1 : Heap) (st1 : HCollector) (ev : ErrorEvent) (a : Nat)
    (ha : a < h1.length) (hrec : a ≠ st1.recentAddr)
    (hcur : ∀ c, st1.current = some c → a ≠ c) :
    (recordH_write h1 st1 ev).1[a]? = h1[a]? := by
  unfold recordH_write
  match hc : st1.current with
  | some c =>
    have hane : c ≠ a := fun he => hcur c hc he.symm
    rw [trim_recent_frame _ _ _ _ (by simpa using ha),
      List.getElem?_set_ne (Ne.symm hrec), List.getElem?_set_ne hane]
  | none =>
    rw [trim_recent_frame _ _ _ _ (by simpa using ha),
      List.getElem?_set_ne (Ne.symm hrec)]

theorem recordH_write_length (h1 : Heap) (st1 : HCollector) (ev : ErrorEvent) :
    h1.length ≤ (recordH_write h1 st1 ev).1.length := by
  unfold recordH_write
  match st1.current with
  | some c =>
    refine le_trans ?_ (trim_recent_length _ _ _)
    simp
  | none =>
    refine le_trans ?_ (trim_recent_length _ _ _)
    simp

theorem recordH_write_state (h1 : Heap) (st1 : HCollector) (ev : ErrorEvent) :
    (recordH_write h1 st1 ev).2.1.buckets = st1.buckets ∧
    (recordH_write h1 st1 ev).2.1.current = st1.current ∧
    ((recordH_write h1 st1 ev).2.1.recentAddr = st1.recentAddr ∨
      h1.length ≤ (recordH_write h1 st1 ev).2.1.recentAddr) := by
  refine ⟨rfl, rfl, ?_⟩
  unfold recordH_write
  match hc : st1.current with
  | some c =>
    dsimp only
    rcases trim_recent_addr ((h1.set c (.hBucket ((hBucketAt h1 c).add_event ev))).set
        st1.recentAddr (.hEvents (hEventsAt (h1.set c (.hBucket ((hBucketAt h1 c).add_event ev)))
          st1.recentAddr ++ [ev])))
        st1.recentAddr
        (hEventsAt (h1.set c (.hBucket ((hBucketAt h1 c).add_event ev))) st1.recentAddr ++ [ev])
      with haddr | haddr
    · exact Or.inl haddr
    · refine Or.inr ?_
      rw [haddr]
      simp
  | none =>
    dsimp only
    rcases trim_recent_addr (h1.set st1.recentAddr
        (.hEvents (hEventsAt h1 st1.recentAddr ++ [ev])))
        st1.recentAddr (hEventsAt h1 st1.recentAddr ++ [ev]) with haddr | haddr
    · exact Or.inl haddr
    · refine Or.inr ?_
      rw [haddr]
      simp

theorem recordH_frame (h : Heap) (st : HCollector) (now : Nat) (ec : Int) (en : String)
    (sc : Int) (msg : String) (a : Nat) (ha : a < h.length) (hna : ¬ usedAddr st a) :
    (recordH h st now ec en sc msg).1[a]? = h[a]? := by
  obtain ⟨hrec, hcur, -⟩ := recordH_bucket_state h st now
  have hlen := recordH_bucket_length h st now
  have hstep : (recordH h st now ec en sc msg).1[a]?
      = (recordH_bucket h st now).1[a]? := by
    apply recordH_write_frame
    · omega
    · rw [hrec]
      intro he
      exact hna (Or.inl he)
    · intro c hc he
      rcases hcur with hcu | hcu
      · rw [hcu] at hc
        exact hna (Or.inr (Or.inl (by rw [hc, he])))
      · rw [hcu] at hc
        have : c = h.length := by
          injection hc with hce
          omega
        omega
  rw [hstep]
  exact recordH_bucket_frame h st now a ha

theorem recordH_length (h : Heap) (st : HCollector) (now : Nat) (ec : Int) (en : String)
    (sc : Int) (msg : String) :
    h.length ≤ (recordH h st now ec en sc msg).1.length :=
  le_trans (recordH_bucket_length h st now) (recordH_write_length _ _ _)

theorem recordH_def (h : Heap) (st : HCollector) (now : Nat) (ec : Int) (en : String)
    (sc : Int) (msg : String) :
    recordH h st now ec en sc msg
      = recordH_write (recordH_bucket h st now).1 (recordH_bucket h st now).2
          { error_code := ec, error_name := en, status_code := sc, message := msg,
            timestamp := now, event_id := st.uuid_seq } := rfl

theorem recordH_used (h : Heap) (st : HCollector) (now : Nat) (ec : Int) (en : String)
    (sc : Int) (msg : String) (a : Nat)
    (hu : usedAddr (recordH h st now ec en sc msg).2.1 a) :
    usedAddr st a ∨ h.length ≤ a := by
  rw [recordH_def] at hu
  obtain ⟨hrec, hcur, hbk⟩ := recordH_bucket_state h st now
  obtain ⟨hwb, hwc, hwr⟩ := recordH_write_state (recordH_bucket h st now).1
    (recordH_bucket h st now).2
    { error_code := ec, error_name := en, status_code := sc, message := msg,
      timestamp := now, event_id := st.uuid_seq }
  have hlen := recordH_bucket_length h st now
  rcases hu with hu | hu | ⟨ka, hka, hka2⟩
  · rcases hwr with hr | hr
    · left
      left
      rw [hu, hr, hrec]
    · right
      omega
  · rw [hwc] at hu
    rcases hcur with hcu | hcu
    · rw [hcu] at hu
      exact Or.inl (Or.inr (Or.inl hu))
    · rw [hcu] at hu
      injection hu with he
      right
      omega
  · rw [hwb] at hka
    rcases hbk ka hka with he | he
    · right
      omega
    · exact Or.inl (Or.inr (Or.inr ⟨ka, he, hka2⟩))

theorem clearH_frame (h : Heap) (st : HCollector) (a : Nat) (hna : a ≠ st.recentAddr) :
    (clearH h st).1[a]? = h[a]? :=
  List.getElem?_set_ne (Ne.symm hna)

theorem clearH_length (h : Heap) (st : HCollector) : (clearH h st).1.length = h.length :=
  List.length_set h st.recentAddr _

theorem clearH_used (h : Heap) (st : HCollector) (a : Nat)
    (hu : usedAddr (clearH h st).2 a) : usedAddr st a := by
  rcases hu with hu | hu | ⟨ka, hka, hka2⟩
  · exact Or.inl hu
  · exact absurd hu (by simp [clearH])
  · exact absurd hka (by simp [clearH])

theorem applyHOp_frame (p : Heap × HCollector) (op : HOp) (a : Nat)
    (ha : a < p.1.length) (hna : ¬ usedAddr p.2 a) :
    (applyHOp p op).1[a]? = p.1[a]? := by
  match op with
  | .opRecord now ec en sc msg =>
    exact recordH_frame p.1 p.2 now ec en sc msg a ha hna
  | .opClear =>
    exact clearH_frame p.1 p.2 a (fun he => hna (Or.inl he))

theorem applyHOp_length (p : Heap × HCollector) (op : HOp) :
    p.1.length ≤ (applyHOp p op).1.length := by
  match op with
  | .opRecord now ec en sc msg => exact recordH_length p.1 p.2 now ec en sc msg
  | .opClear => exact le_of_eq (clearH_length p.1 p.2).symm

theorem applyHOp_used (p : Heap × HCollector) (op : HOp) (a : Nat)
    (hu : usedAddr (applyHOp p op).2 a) : usedAddr p.2 a ∨ p.1.length ≤ a := by
  match op with
  | .opRecord now ec en sc msg => exact recordH_used p.1 p.2 now ec en sc msg a hu
  | .opClear => exact Or.inl (clearH_used p.1 p.2 a hu)

theorem runHOps_frame (ops : List HOp) (p : Heap × HCollector) (a : Nat)
    (ha : a < p.1.length) (hna : ¬ usedAddr p.2 a) :
    (runHOps p ops).1[a]? = p.1[a]? := by
  induction ops generalizing p with
  | nil => rfl
  | cons op rest ih =>
    have h1 := applyHOp_frame p op a ha hna
    have h2 := applyHOp_length p op
    have h3 : ¬ usedAddr (applyHOp p op).2 a := by
      intro hu
      rcases applyHOp_used p op a hu with hx | hx
      · exact hna hx
      · omega
    calc (runHOps p (op :: rest)).1[a]? = (runHOps (applyHOp p op) rest).1[a]? := rfl
      _ = (applyHOp p op).1[a]? := ih (applyHOp p op) (by omega) h3
      _ = p.1[a]? := h1

/-! ### Snapshot cell facts and the frame claims -/

theorem get_snapshotH_cells (h : Heap) (st : HCollector) (t : Nat) :
    (get_snapshotH h st t).2.countsAddr = h.length ∧
    (get_snapshotH h st t).2.recentAddr = h.length + 1 ∧
    (get_snapshotH h st t).1.length = h.length + 2 ∧
    (get_snapshotH h st t).1[h.length]? = some (.hCounts (snapshotCountsH h st)) ∧
    (get_snapshotH h st t).1[h.length + 1]? = some (.hEvents (hEventsAt h st.recentAddr)) := by
  refine ⟨rfl, rfl, by simp [get_snapshotH], ?_, ?_⟩
  · show (h ++ [.hCounts (snapshotCountsH h st), .hEvents (hEventsAt h st.recentAddr)])[h.length]?
      = _
    rw [List.getElem?_append_right (le_refl _)]
    simp
  · show (h ++ [.hCounts (snapshotCountsH h st), .hEvents (hEventsAt h st.recentAddr)])[h.length + 1]?
      = _
    rw [List.getElem?_append_right (by omega)]
    simp

theorem getElem?_append_frame (h : Heap) (l : List HVal) (a : Nat) (ha : a < h.length) :
    (h ++ l)[a]? = h[a]? :=
  List.getElem?_append_left ha

theorem hBucketAt_append (h : Heap) (l : List HVal) (a : Nat) (ha : a < h.length) :
    hBucketAt (h ++ l) a = hBucketAt h a := by
  unfold hBucketAt
  rw [List.getElem?_append_left ha]

theorem snapshotCountsH_congr (h h2 : Heap) (st : HCollector)
    (hb : ∀ ka ∈ st.buckets, hBucketAt h2 ka.2 = hBucketAt h ka.2) :
    snapshotCountsH h2 st = snapshotCountsH h st := by
  unfold snapshotCountsH
  have : ∀ (bs : List (Nat × Nat)) (acc : List (Int × Nat)),
      (∀ ka ∈ bs, hBucketAt h2 ka.2 = hBucketAt h ka.2) →
      bs.foldl (fun acc ka => (hBucketAt h2 ka.2).error_counts.foldl
          (fun a cc => bumpCount a cc.1 cc.2) acc) acc
        = bs.foldl (fun acc ka => (hBucketAt h ka.2).error_counts.foldl
            (fun a cc => bumpCount a cc.1 cc.2) acc) acc := by
    intro bs
    induction bs with
    | nil => intro acc _; rfl
    | cons ka rest ih =>
      intro acc hmem
      rw [List.foldl_cons, List.foldl_cons, hmem ka (List.mem_cons_self _ _),
        ih _ (fun kb hkb => hmem kb (List.mem_cons_of_mem _ hkb))]
  exact this st.buckets [] hb

/-- C8: snapshot immutability.  In the heap model (which tracks object
identity), take a snapshot and then run any sequence of `record()` and
`clear()` calls: the snapshot's captured total is the value at capture
time, and the cells holding its `error_counts` dict and its copy of
`recent_events` still hold exactly the captured contents afterwards — the
collector never writes to them, because `get_snapshot` allocated them
fresh.  The hypothesis says the collector's own references point into the
heap, which holds for every state reachable from `initHeapCollector`. -/
theorem c8_snapshot_immutable (h : Heap) (st : HCollector) (t : Nat) (ops : List HOp)
    (hok : ∀ a, usedAddr st a → a < h.length) :
    (get_snapshotH h st t).2.total_errors = st.total_events ∧
    (runHOps ((get_snapshotH h st t).1, st) ops).1[(get_snapshotH h st t).2.countsAddr]?
      = some (.hCounts (snapshotCountsH h st)) ∧
    (runHOps ((get_snapshotH h st t).1, st) ops).1[(get_snapshotH h st t).2.recentAddr]?
      = some (.hEvents (hEventsAt h st.recentAddr)) := by
  obtain ⟨hca, hra, hlen, hcc, hrc⟩ := get_snapshotH_cells h st t
  have hokc : ¬ usedAddr st h.length := fun hu => by
    have := hok _ hu
    omega
  have hokr : ¬ usedAddr st (h.length + 1) := fun hu => by
    have := hok _ hu
    omega
  refine ⟨rfl, ?_, ?_⟩
  · rw [hca, runHOps_frame ops ((get_snapshotH h st t).1, st) h.length (by rw [hlen]; omega) hokc]
    exact hcc
  · rw [hra, runHOps_frame ops ((get_snapshotH h st t).1, st) (h.length + 1) (by rw [hlen]; omega) hokr]
    exact hrc

/-- C8 witness: on a freshly initialized heap collector, after one `record`
and one `clear` following a snapshot, the snapshot's cells are untouched. -/
theorem c8_snapshot_immutable_witness :
    ((get_snapshotH (initHeapCollector defaultConfig).1 (initHeapCollector defaultConfig).2 0).2.total_errors
      = (initHeapCollector defaultConfig).2.total_events) ∧
    (runHOps ((get_snapshotH (initHeapCollector defaultConfig).1 (initHeapCollector defaultConfig).2 0).1,
        (initHeapCollector defaultConfig).2)
      [HOp.opRecord 0 404 "NotFound" 404 "x", HOp.opClear]).1[
        (get_snapshotH (initHeapCollector defaultConfig).1 (initHeapCollector defaultConfig).2 0).2.countsAddr]?
      = some (.hCounts (snapshotCountsH (initHeapCollector defaultConfig).1 (initHeapCollector defaultConfig).2)) ∧
    (runHOps ((get_snapshotH (initHeapCollector defaultConfig).1 (initHeapCollector defaultConfig).2 0).1,
        (initHeapCollector defaultConfig).2)
      [HOp.opRecord 0 404 "NotFound" 404 "x", HOp.opClear]).1[
        (get_snapshotH (initHeapCollector defaultConfig).1 (initHeapCollector defaultConfig).2 0).2.recentAddr]?
      = some (.hEvents (hEventsAt (initHeapCollector defaultConfig).1 (initHeapCollector defaultConfig).2.recentAddr)) :=
  c8_snapshot_immutable (initHeapCollector defaultConfig).1 (initHeapCollector defaultConfig).2 0
    [HOp.opRecord 0 404 "NotFound" 404 "x", HOp.opClear]
    (by
      intro a hu
      rcases hu with hu | hu | ⟨ka, hka, -⟩
      · simp [initHeapCollector] at hu ⊢
        omega
      · simp [initHeapCollector] at hu
      · simp [initHeapCollector] at hka)

/-- C9: idempotence of reads.  Two successive `get_snapshot` calls with no
intervening write see identical `total_errors` and aggregate identical
`error_counts` (their two counts cells hold the same mapping; only the
timestamps `t1`, `t2` may differ), and a `get_snapshot` call mutates
nothing: the collector state is passed through untouched and every
pre-existing heap cell is preserved (the call only allocates). -/
theorem c9_reads_idempotent (h : Heap) (st : HCollector) (t1 t2 : Nat)
    (hok : ∀ a, usedAddr st a → a < h.length) :
    (get_snapshotH h st t1).2.total_errors
      = (get_snapshotH (get_snapshotH h st t1).1 st t2).2.total_errors ∧
    snapshotCountsH (get_snapshotH h st t1).1 st = snapshotCountsH h st ∧
    (get_snapshotH (get_snapshotH h st t1).1 st t2).1[(get_snapshotH h st t1).2.countsAddr]?
      = some (.hCounts (snapshotCountsH h st)) ∧
    (get_snapshotH (get_snapshotH h st t1).1 st t2).1[
        (get_snapshotH (get_snapshotH h st t1).1 st t2).2.countsAddr]?
      = some (.hCounts (snapshotCountsH h st)) ∧
    (∀ a, a < h.length → (get_snapshotH h st t1).1[a]? = h[a]?) := by
  obtain ⟨hca1, hra1, hlen1, hcc1, hrc1⟩ := get_snapshotH_cells h st t1
  obtain ⟨hca2, hra2, hlen2, hcc2, hrc2⟩ := get_snapshotH_cells (get_snapshotH h st t1).1 st t2
  have hcongr : snapshotCountsH (get_snapshotH h st t1).1 st = snapshotCountsH h st := by
    apply snapshotCountsH_congr
    intro ka hka
    exact hBucketAt_append h _ ka.2 (hok ka.2 (Or.inr (Or.inr ⟨ka, hka, rfl⟩)))
  refine ⟨rfl, hcongr, ?_, ?_, ?_⟩
  · rw [hca1]
    show ((get_snapshotH h st t1).1 ++ _)[h.length]? = _
    rw [List.getElem?_append_left (by rw [hlen1]; omega)]
    exact hcc1
  · rw [hca2, hcc2, hcongr]
  · intro a ha
    exact List.getElem?_append_left ha

/-- The heap state reached by one `record` call from a fresh default heap
collector keeps all collector references inside the heap. -/
theorem c9_witness_state_ok :
    ∀ a, usedAddr (applyHOp (initHeapCollector defaultConfig)
        (HOp.opRecord 0 404 "NotFound" 404 "x")).2 a →
      a < (applyHOp (initHeapCollector defaultConfig)
        (HOp.opRecord 0 404 "NotFound" 404 "x")).1.length := by
  have hst : (applyHOp (initHeapCollector defaultConfig) (HOp.opRecord 0 404 "NotFound" 404 "x")).2
      = { config := defaultConfig, total_events := 1, buckets := [(0, 1)], recentAddr := 0,
          current := some 1, bucket_duration := 60000, uuid_seq := 1 } := by decide
  have hlen : (applyHOp (initHeapCollector defaultConfig)
      (HOp.opRecord 0 404 "NotFound" 404 "x")).1.length = 2 := by decide
  intro a hu
  rw [hlen]
  rw [hst] at hu
  rcases hu with hu | hu | ⟨ka, hka, hka2⟩
  · simp at hu
    omega
  · simp at hu
    omega
  · simp at hka
    subst hka
    simp at hka2
    omega

/-- C9 witness: the theorem instantiated on the heap state reached by one
`record` call from a fresh default heap collector, with capture instants 5
and 7. -/
theorem c9_reads_idempotent_witness :
    (get_snapshotH (applyHOp (initHeapCollector defaultConfig) (HOp.opRecord 0 404 "NotFound" 404 "x")).1
        (applyHOp (initHeapCollector defaultConfig) (HOp.opRecord 0 404 "NotFound" 404 "x")).2 5).2.total_errors
      = (get_snapshotH
          (get_snapshotH (applyHOp (initHeapCollector defaultConfig) (HOp.opRecord 0 404 "NotFound" 404 "x")).1
            (applyHOp (initHeapCollector defaultConfig) (HOp.opRecord 0 404 "NotFound" 404 "x")).2 5).1
          (applyHOp (initHeapCollector defaultConfig) (HOp.opRecord 0 404 "NotFound" 404 "x")).2 7).2.total_errors ∧
    snapshotCountsH
        (get_snapshotH (applyHOp (initHeapCollector defaultConfig) (HOp.opRecord 0 404 "NotFound" 404 "x")).1
          (applyHOp (initHeapCollector defaultConfig) (HOp.opRecord 0 404 "NotFound" 404 "x")).2 5).1
        (applyHOp (initHeapCollector defaultConfig) (HOp.opRecord 0 404 "NotFound" 404 "x")).2
      = snapshotCountsH (applyHOp (initHeapCollector defaultConfig) (HOp.opRecord 0 404 "NotFound" 404 "x")).1
          (applyHOp (initHeapCollector defaultConfig) (HOp.opRecord 0 404 "NotFound" 404 "x")).2 := by
  have hmain := c9_reads_idempotent
    (applyHOp (initHeapCollector defaultConfig) (HOp.opRecord 0 404 "NotFound" 404 "x")).1
    (applyHOp (initHeapCollector defaultConfig) (HOp.opRecord 0 404 "NotFound" 404 "x")).2 5 7
    c9_witness_state_ok
  exact ⟨hmain.1, hmain.2.1⟩

/-- C1 witness: count consistency instantiated on a concrete three-call
trace containing a `clear`. -/
theorem c1_count_consistency_witness :
    ((runOps (initCollector defaultConfig)
        [CollectorOp.opRecord 0 404 "NotFound" 404 "a", CollectorOp.opClear,
         CollectorOp.opRecord 0 500 "ServerError" 500 "b"]).get_snapshot 9).total_errors
      = countSinceClear
          [CollectorOp.opRecord 0 404 "NotFound" 404 "a", CollectorOp.opClear,
           CollectorOp.opRecord 0 500 "ServerError" 500 "b"] ∧
    sumVals ((runOps (initCollector defaultConfig)
        [CollectorOp.opRecord 0 404 "NotFound" 404 "a", CollectorOp.opClear,
         CollectorOp.opRecord 0 500 "ServerError" 500 "b"]).get_snapshot 9).error_counts
      = estimated_total (runOps (initCollector defaultConfig)
          [CollectorOp.opRecord 0 404 "NotFound" 404 "a", CollectorOp.opClear,
           CollectorOp.opRecord 0 500 "ServerError" 500 "b"]).buckets :=
  c1_count_consistency defaultConfig
    [CollectorOp.opRecord 0 404 "NotFound" 404 "a", CollectorOp.opClear,
     CollectorOp.opRecord 0 500 "ServerError" 500 "b"] 9

/-- C6 witness: `clear()` on the Scenario-A state. -/
theorem c6_clear_witness :
    (scenarioA.clear).total_events = 0 ∧
    (scenarioA.clear).get_buckets = [] ∧
    (scenarioA.clear).get_recent_events 100 = [] ∧
    (scenarioA.clear).current_bucket = none ∧
    (scenarioA.clear).clear = scenarioA.clear :=
  c6_clear scenarioA
